import Mathlib

/-!
Verification of the appointment data-synchronization and aggregation layer
of the ArenaTime scheduling dashboard (src/src/pages/ClientDashboard.tsx and
src/src/pages/DashboardModern.tsx), as a shallow embedding in Lean 4.

Conventions of the embedding:
* JavaScript Date values are modelled as a pair of a day index and a
  milliseconds-of-day component; setHours(0,0,0,0) zeroes the second
  component; date comparison is lexicographic.
* Remote tables are modelled as explicit lists or as functions from
  identifiers/offsets to results; a supabase response
  { data, error } is an Except value.
* JavaScript values of type number | null | undefined are modelled by the
  inductive type JSNum, so that the strict comparison with null can be
  translated faithfully.
-/

/-- A JavaScript Date: day index (may be negative) and milliseconds of day. -/
structure JSDate where
  day : Int
  ms : Nat
  deriving DecidableEq, Repr

/-- setHours(0,0,0,0): zero the time-of-day component. -/
def setHours0 (d : JSDate) : JSDate := ⟨d.day, 0⟩

/-- date-fns isBefore / JavaScript < on Date: lexicographic comparison. -/
def dateLt (a b : JSDate) : Bool :=
  a.day < b.day || (a.day = b.day && a.ms < b.ms)

/- ### Paginated fetcher

The loop shared (verbatim, up to variable names) by
ClientDashboard.tsx useAppointments queryFn (lines 866-906),
getAppointmentsByPeriod, useClientBookings queryFn (lines 1326-1362), and
DashboardModern.tsx fetchAppointments (lines 126-170) and fetchClients:
page size 1000, continue while a page comes back full, stop on a short or
empty page, and stop unconditionally once the next offset reaches
pageSize * 10 = 10000. A page error breaks the loop and is re-raised
after it.  The remote store is a function from the starting offset of a
range request to the page it returns (or an error). -/

/-- One iteration state of the pagination while-loop: remote page request at
offset start, accumulate into acc.  Mirrors the source loop:
on error break (the caller then throws, so the accumulator is discarded);
on data, append the page, advance the offset by 1000, and continue exactly
when the page was full (length 1000) and the advanced offset is still below
the 10-page cap. -/
def paginateFrom (remote : Nat → Except ε (List α)) (start : Nat) (acc : List α) :
    Except ε (List α) :=
  match remote start with
  | .error e => .error e
  | .ok page =>
    let acc2 := acc ++ page
    if h : page.length = 1000 ∧ start + 1000 < 1000 * 10 then
      paginateFrom remote (start + 1000) acc2
    else
      .ok acc2
termination_by 1000 * 10 - start
decreasing_by omega

/-- The whole paginated fetch: start at offset 0 with an empty accumulator. -/
def paginate (remote : Nat → Except ε (List α)) : Except ε (List α) :=
  paginateFrom remote 0 []

/-- Spec-side description of the sequence of pages the loop consumes
(meaningful on the success path): the page at the current offset, followed by
further pages exactly when this page is full and the next offset is below the
cap.  Stated from the specification wording; the refinement theorems below
relate it to paginateFrom, which is translated from the source. -/
def specFetchedPages (remote : Nat → Except ε (List α)) (start : Nat) :
    List (List α) :=
  match remote start with
  | .error _ => []
  | .ok page =>
    if h : page.length = 1000 ∧ start + 1000 < 1000 * 10 then
      page :: specFetchedPages remote (start + 1000)
    else
      [page]
termination_by 1000 * 10 - start
decreasing_by obtain ⟨_, hcap⟩ := h; omega

theorem paginateFrom_ok_join_aux (remote : Nat → Except ε (List α)) :
    ∀ n start acc l, 1000 * 10 - start ≤ n →
      paginateFrom remote start acc = .ok l →
      l = acc ++ (specFetchedPages remote start).flatten := by
  intro n
  induction n with
  | zero =>
    intro start acc l hn hl
    rw [paginateFrom] at hl
    rw [specFetchedPages]
    cases hrem : remote start with
    | error e => rw [hrem] at hl; exact absurd hl (by simp)
    | ok page =>
      rw [hrem] at hl
      simp only at hl
      have h : ¬(page.length = 1000 ∧ start + 1000 < 1000 * 10) := by omega
      rw [dif_neg h] at hl
      simp only [dif_neg h]
      cases hl
      simp
  | succ n ih =>
    intro start acc l hn hl
    rw [paginateFrom] at hl
    rw [specFetchedPages]
    cases hrem : remote start with
    | error e => rw [hrem] at hl; exact absurd hl (by simp)
    | ok page =>
      rw [hrem] at hl
      simp only at hl
      by_cases h : page.length = 1000 ∧ start + 1000 < 1000 * 10
      · rw [dif_pos h] at hl
        simp only [dif_pos h]
        have := ih (start + 1000) (acc ++ page) l (by omega) hl
        simp [this]
      · rw [dif_neg h] at hl
        simp only [dif_neg h]
        cases hl
        simp

theorem paginateFrom_ok_join (remote : Nat → Except ε (List α))
    (start : Nat) (acc l : List α) (hl : paginateFrom remote start acc = .ok l) :
    l = acc ++ (specFetchedPages remote start).flatten :=
  paginateFrom_ok_join_aux remote (1000 * 10) start acc l (by omega) hl

theorem paginateFrom_length_le_aux (remote : Nat → Except ε (List α))
    (hrem : ∀ o p, remote o = .ok p → p.length ≤ 1000) :
    ∀ n start acc l, 1000 * 10 - start ≤ n → 1000 ∣ start → start ≤ 1000 * 9 →
      paginateFrom remote start acc = .ok l →
      l.length ≤ acc.length + (1000 * 10 - start) := by
  intro n
  induction n with
  | zero => intro start acc l hn hdvd hle hl; omega
  | succ n ih =>
    intro start acc l hn hdvd hle hl
    rw [paginateFrom] at hl
    cases hrem0 : remote start with
    | error e => rw [hrem0] at hl; exact absurd hl (by simp)
    | ok page =>
      rw [hrem0] at hl
      simp only at hl
      have hplen : page.length ≤ 1000 := hrem start page hrem0
      by_cases h : page.length = 1000 ∧ start + 1000 < 1000 * 10
      · rw [dif_pos h] at hl
        have hnext := ih (start + 1000) (acc ++ page) l (by omega)
          (by omega) (by omega) hl
        simp only [List.length_append] at hnext
        omega
      · rw [dif_neg h] at hl
        cases hl
        simp only [List.length_append]
        omega

/-- C1: for every paginated fetch (page size 1000), the returned sequence is
the concatenation of the pages fetched in order, so its length is the sum of
the fetched page lengths; the loop continues exactly on a full page, stops on
a shorter one, stops unconditionally at offset 10000, and hence (as every
range request returns at most 1000 rows) the result never holds more than
10000 records. -/
theorem c1_pagination (remote : Nat → Except ε (List α))
    (hrem : ∀ o p, remote o = .ok p → p.length ≤ 1000)
    (l : List α) (hl : paginate remote = .ok l) :
    l = (specFetchedPages remote 0).flatten ∧
    l.length = ((specFetchedPages remote 0).map List.length).sum ∧
    l.length ≤ 1000 * 10 := by
  have hj := paginateFrom_ok_join remote 0 [] l hl
  have hb := paginateFrom_length_le_aux remote hrem (1000 * 10) 0 [] l
    (by omega) (by omega) (by omega) hl
  refine ⟨by simpa using hj, ?_, by simpa using hb⟩
  rw [hj]
  simp [List.length_flatten]

/-- A one-page remote store used to witness the pagination theorems. -/
def remoteOnePage : Nat → Except Unit (List Nat) := fun _ => .ok [7]

/-- Witness for C1: the pagination theorem applied to a concrete one-page
remote store. -/
theorem c1_pagination_witness :
    [7] = (specFetchedPages remoteOnePage 0).flatten ∧
    List.length [7] = ((specFetchedPages remoteOnePage 0).map List.length).sum ∧
    List.length [7] ≤ 1000 * 10 :=
  c1_pagination remoteOnePage
    (by intro o p hp; simp [remoteOnePage] at hp; simp [← hp])
    [7] (by rw [paginate, paginateFrom]; simp [remoteOnePage])

/- ### Pagination error paths

ClientDashboard.tsx useAppointments queryFn (lines 881-906) and
DashboardModern.tsx fetchAppointments (lines 149-174) capture a page error,
break, and then re-raise it (throw error), so the fetch result is the error
and the partially accumulated pages are discarded.
ClientDashboard.tsx useClientBookings queryFn (lines 1341-1366) captures a
page error, breaks, and then returns the empty list as a SUCCESSFUL result
(if (appointmentsError) return [];). -/

/-- The useAppointments / fetchAppointments shape: the loop result is
returned as-is, so an error propagates (the queryFn throws it). -/
def useAppointmentsFetch (remote : Nat → Except ε (List α)) :
    Except ε (List α) :=
  paginate remote

/-- The useClientBookings queryFn shape: a page error makes the whole fetch
return the empty list as a successful result. -/
def clientBookingsFetch (remote : Nat → Except ε (List α)) :
    Except ε (List α) :=
  match paginate remote with
  | .error _ => .ok []
  | .ok l => .ok l

theorem paginateFrom_error_at (remote : Nat → Except ε (List α)) (e : ε) :
    ∀ k start acc, start + 1000 * k + 1000 ≤ 1000 * 10 →
      (∀ j < k, ∃ p, remote (start + 1000 * j) = .ok p ∧ p.length = 1000) →
      remote (start + 1000 * k) = .error e →
      paginateFrom remote start acc = .error e := by
  intro k
  induction k with
  | zero =>
    intro start acc hcap hfull herr
    rw [paginateFrom]
    simp only [Nat.mul_zero, Nat.add_zero] at herr
    rw [herr]
  | succ k ih =>
    intro start acc hcap hfull herr
    obtain ⟨p, hp, hplen⟩ := hfull 0 (by omega)
    simp only [Nat.mul_zero, Nat.add_zero] at hp
    rw [paginateFrom, hp]
    simp only
    rw [dif_pos ⟨hplen, by omega⟩]
    apply ih (start + 1000) _ (by omega)
    · intro j hj
      obtain ⟨q, hq, hqlen⟩ := hfull (j + 1) (by omega)
      exact ⟨q, by rw [← hq]; ring_nf, hqlen⟩
    · rw [← herr]; ring_nf

/-- A remote store whose very first page request fails. -/
def remoteAllError : Nat → Except Unit (List Nat) := fun _ => .error ()

/-- Counterexample to C8 as stated: in useClientBookings, a paginated fetch
in which a page request errors is NOT surfaced to the caller as an error;
it is delivered as a successful empty result. -/
theorem c8_counterexample :
    clientBookingsFetch remoteAllError = Except.ok [] ∧
    (∀ e : Unit, clientBookingsFetch remoteAllError ≠ Except.error e) := by
  constructor
  · rw [clientBookingsFetch, paginate, paginateFrom]
    simp [remoteAllError]
  · intro e h
    rw [clientBookingsFetch, paginate, paginateFrom] at h
    simp [remoteAllError] at h

/-- C8 amended: when page k errors after k full pages (within the cap), the
loop stops there and no partially accumulated record is delivered: the
useAppointments / DashboardModern fetch surfaces the error itself, while the
useClientBookings fetch discards the partial pages but delivers a successful
empty list instead of an error. -/
theorem c8_error_aborts (remote : Nat → Except ε (List α)) (k : Nat) (e : ε)
    (hcap : k < 10)
    (hfull : ∀ j < k, ∃ p, remote (1000 * j) = .ok p ∧ p.length = 1000)
    (herr : remote (1000 * k) = .error e) :
    useAppointmentsFetch remote = .error e ∧
    clientBookingsFetch remote = .ok [] := by
  have hloop : paginateFrom remote 0 [] = .error e := by
    apply paginateFrom_error_at remote e k 0 [] (by omega)
    · simpa using hfull
    · simpa using herr
  constructor
  · rw [useAppointmentsFetch, paginate]; exact hloop
  · rw [clientBookingsFetch, paginate, hloop]

/-- Witness for C8 amended: the theorem applied to the concrete remote store
whose first page request fails. -/
theorem c8_error_aborts_witness :
    useAppointmentsFetch remoteAllError = .error () ∧
    clientBookingsFetch remoteAllError = .ok [] :=
  c8_error_aborts remoteAllError 0 () (by omega)
    (by intro j hj; omega) (by rw [remoteAllError])

/- ### Create appointment (ClientDashboard.tsx createAppointmentMutation,
lines 1006-1031)

The mutation first looks the referenced modality up by id and account
(single row); if the lookup errors or returns nothing it throws
"Modalidade não encontrada".  It then inserts a row whose valor_total is
the JavaScript expression
  is_cortesia ? 0 : (customValue !== null ? customValue : modalityData.valor)
where customValue has TypeScript type number | null | undefined.  The three
JavaScript states of customValue are modelled by JSNum. -/

/-- A JavaScript value of type number | null | undefined. -/
inductive JSNum where
  | undef : JSNum
  | null : JSNum
  | num : Int → JSNum
  deriving DecidableEq, Repr

/-- A modality row: account-scoped, with a name and a price (valor). -/
structure Modality where
  id : String
  user_id : String
  name : String
  valor : Int
  deriving DecidableEq, Repr

/-- The CreateAppointmentData argument of createAppointmentMutation.
Optional fields are Option; customValue is a JSNum since its TypeScript
type is number | null | undefined and the source tests it with !== null. -/
structure CreateAppointmentData where
  client_id : String
  date : String
  modality_id : String
  status : Option String
  recurrence_id : Option String
  booking_source : Option String
  is_cortesia : Option Bool
  customValue : JSNum
  deriving Repr

/-- The row handed to the appointments insert (the fields the mutation
sets). valor_total is JSNum because the JavaScript expression can evaluate
to undefined, in which case the field is dropped from the payload. -/
structure AppointmentInsert where
  client_id : String
  date : String
  modality_id : String
  valor_total : JSNum
  is_cortesia : Bool
  status : String
  booking_source : String
  deriving DecidableEq, Repr

/-- createAppointmentMutation mutationFn: modality lookup then insert-row
construction, translated clause by clause from lines 1006-1031.
modalityData is the result of the single-row lookup of
appointmentData.modality_id for the account. -/
def createAppointmentRow (modalityData : Option Modality)
    (d : CreateAppointmentData) : Except String AppointmentInsert :=
  match modalityData with
  | none => .error "Modalidade não encontrada"
  | some m => .ok {
      client_id := d.client_id
      date := d.date
      modality_id := d.modality_id
      valor_total :=
        if d.is_cortesia.getD false then .num 0
        else if d.customValue ≠ JSNum.null then d.customValue
        else .num m.valor
      is_cortesia := d.is_cortesia.getD false
      status := d.status.getD "agendado"
      booking_source := d.booking_source.getD "manual" }

/-- A modality priced 120, as in the claim. -/
def modalityPriced120 : Modality :=
  { id := "m1", user_id := "u1", name := "Futebol", valor := 120 }

/-- A non-complimentary create call that omits customValue (undefined). -/
def createDataNoCustom : CreateAppointmentData :=
  { client_id := "c1", date := "2025-01-10T10:00:00", modality_id := "m1",
    status := none, recurrence_id := none, booking_source := none,
    is_cortesia := some false, customValue := JSNum.undef }

/-- Counterexample to C2 as stated: with the referenced modality present and
priced 120, a non-complimentary call that provides no custom value (the
customValue field is omitted, i.e. undefined) does NOT persist the modality
price: the computed valor_total is undefined (the field is dropped from the
insert payload), because the source only tests customValue !== null. -/
theorem c2_counterexample :
    (createAppointmentRow (some modalityPriced120) createDataNoCustom).map
      (fun r => r.valor_total) = .ok JSNum.undef ∧
    JSNum.undef ≠ JSNum.num 120 :=
  ⟨rfl, by decide⟩

/-- C2 amended: when the referenced modality exists for the account, the
inserted valor_total is 0 whenever the complimentary flag is truthy (even
with a nonzero modality price); otherwise it is the custom value when
customValue is a number, the modality price when customValue is explicitly
null, and undefined (field dropped from the payload) when customValue is
omitted. -/
theorem c2_value (modalityData : Option Modality) (m : Modality)
    (hm : modalityData = some m) (d : CreateAppointmentData) :
    (d.is_cortesia.getD false = true →
      (createAppointmentRow modalityData d).map (fun r => r.valor_total) =
        .ok (JSNum.num 0)) ∧
    (∀ v : Int, d.is_cortesia.getD false = false → d.customValue = JSNum.num v →
      (createAppointmentRow modalityData d).map (fun r => r.valor_total) =
        .ok (JSNum.num v)) ∧
    (d.is_cortesia.getD false = false → d.customValue = JSNum.null →
      (createAppointmentRow modalityData d).map (fun r => r.valor_total) =
        .ok (JSNum.num m.valor)) ∧
    (d.is_cortesia.getD false = false → d.customValue = JSNum.undef →
      (createAppointmentRow modalityData d).map (fun r => r.valor_total) =
        .ok JSNum.undef) := by
  subst hm
  refine ⟨fun hc => ?_, fun v hc hv => ?_, fun hc hv => ?_, fun hc hv => ?_⟩
  · simp [createAppointmentRow, Except.map, hc]
  · simp [createAppointmentRow, Except.map, hc, hv]
  · simp [createAppointmentRow, Except.map, hc, hv]
  · simp [createAppointmentRow, Except.map, hc, hv]

/-- A complimentary create call against the modality priced 120. -/
def createDataCortesia : CreateAppointmentData :=
  { createDataNoCustom with is_cortesia := some true }

/-- Witness for C2 amended: the complimentary call against the modality
priced 120 persists valor_total 0. -/
theorem c2_value_witness :
    (createAppointmentRow (some modalityPriced120) createDataCortesia).map
      (fun r => r.valor_total) = .ok (JSNum.num 0) :=
  (c2_value (some modalityPriced120) modalityPriced120 rfl
    createDataCortesia).1 rfl

/- ### Status derivation (DashboardModern.tsx getStatusColor lines 193-231,
getStatusLabel lines 233-252)

getStatusColor computes an effective status: for a dated appointment with
raw status agendado whose day (time zeroed) is strictly before today (time
zeroed) it becomes a_cobrar (or cortesia when complimentary), and then,
unconditionally, any complimentary appointment gets effective status
cortesia; the color is a lookup over the effective status, with the
recurrence flag only switching the palette.  getStatusLabel repeats the
past-agendado test but otherwise maps the RAW status to a text label; the
complimentary flag only affects the label when the raw status is agendado. -/

/-- JavaScript truthiness of an optional string (undefined and the empty
string are falsy). -/
def jsTruthyStr : Option String → Bool
  | none => false
  | some s => s != ""

/-- The effectiveStatus variable computed at the top of getStatusColor. -/
def effectiveStatusModern (status : String) (date : Option JSDate)
    (is_cortesia : Bool) (today : JSDate) : String :=
  let es :=
    match date with
    | some d =>
      if status = "agendado" then
        if dateLt (setHours0 d) (setHours0 today) then
          if is_cortesia then "cortesia" else "a_cobrar"
        else status
      else status
    | none => status
  if is_cortesia then "cortesia" else es

/-- getStatusColor: palette lookup over the effective status; the
recurrence id (when truthy) only switches the palette of agendado and the
default case. -/
def getStatusColor (status : String) (date : Option JSDate)
    (recurrence_id : Option String) (is_cortesia : Bool) (today : JSDate) :
    String :=
  let effectiveStatus := effectiveStatusModern status date is_cortesia today
  if jsTruthyStr recurrence_id then
    match effectiveStatus with
    | "pago" => "bg-green-100 text-green-800 border-green-200"
    | "a_cobrar" => "bg-red-100 text-red-800 border-red-200"
    | "cortesia" => "bg-pink-100 text-pink-800 border-pink-200"
    | "agendado" => "bg-blue-100 text-blue-800 border-blue-200"
    | "cancelado" => "bg-gray-100 text-gray-600 border-gray-200 line-through"
    | _ => "bg-blue-50 text-blue-700 border-blue-200"
  else
    match effectiveStatus with
    | "pago" => "bg-green-100 text-green-800 border-green-200"
    | "a_cobrar" => "bg-red-100 text-red-800 border-red-200"
    | "cortesia" => "bg-pink-100 text-pink-800 border-pink-200"
    | "agendado" => "bg-purple-100 text-purple-800 border-purple-200"
    | "cancelado" => "bg-gray-100 text-gray-600 border-gray-200 line-through"
    | _ => "bg-purple-50 text-purple-700 border-purple-200"

/-- The fall-through chain of getStatusLabel after the past-date test. -/
def statusLabelFallthrough (status : String) (is_cortesia : Bool) : String :=
  if status = "cancelado" then "Cancelado"
  else if status = "pago" then "Pago"
  else if status = "agendado" then
    (if is_cortesia then "🎁 Cortesia" else "Agendado")
  else if status = "a_cobrar" then "A Cobrar"
  else if status = "cortesia" then "🎁 Cortesia"
  else "A Cobrar"

/-- getStatusLabel, translated from lines 233-252. -/
def getStatusLabel (status : String) (date : Option JSDate)
    (is_cortesia : Bool) (today : JSDate) : String :=
  match date with
  | some d =>
    if dateLt (setHours0 d) (setHours0 today) = true ∧ status = "agendado" then
      (if is_cortesia then "🎁 Cortesia" else "A Cobrar")
    else statusLabelFallthrough status is_cortesia
  | none => statusLabelFallthrough status is_cortesia

/-- Counterexample to C3 as stated: a complimentary appointment with raw
status pago dated tomorrow is labelled Pago, not cortesia; the label does
not follow the complimentary rule for raw statuses other than agendado. -/
theorem c3_counterexample :
    getStatusLabel "pago" (some ⟨1, 0⟩) true ⟨0, 0⟩ = "Pago" ∧
    "Pago" ≠ "🎁 Cortesia" :=
  ⟨rfl, by decide⟩

/-- C3 amended: with the complimentary flag set, the effective status and
hence the color are always the cortesia ones, for every raw status, date
and recurrence flag; but the label is cortesia only for raw status
agendado — raw pago, a_cobrar and cancelado keep their own labels. -/
theorem c3_cortesia (status : String) (date : Option JSDate)
    (recurrence_id : Option String) (today : JSDate) :
    effectiveStatusModern status date true today = "cortesia" ∧
    getStatusColor status date recurrence_id true today =
      "bg-pink-100 text-pink-800 border-pink-200" ∧
    getStatusLabel "agendado" date true today = "🎁 Cortesia" ∧
    getStatusLabel "pago" date true today = "Pago" ∧
    getStatusLabel "a_cobrar" date true today = "A Cobrar" ∧
    getStatusLabel "cancelado" date true today = "Cancelado" := by
  have he : effectiveStatusModern status date true today = "cortesia" := by
    simp [effectiveStatusModern]
  refine ⟨he, ?_, ?_, ?_, ?_, ?_⟩
  · rw [getStatusColor]
    rw [he]
    cases hr : jsTruthyStr recurrence_id <;> simp
  · cases date with
    | none => simp [getStatusLabel, statusLabelFallthrough]
    | some d =>
      simp only [getStatusLabel]
      split <;> simp [statusLabelFallthrough]
  · cases date <;> simp [getStatusLabel, statusLabelFallthrough]
  · cases date <;> simp [getStatusLabel, statusLabelFallthrough]
  · cases date <;> simp [getStatusLabel, statusLabelFallthrough]

/-- C4: for a non-complimentary appointment, raw status agendado with a
date strictly before today (both time-of-day zeroed) derives to a_cobrar
(with label A Cobrar); every other non-complimentary appointment keeps its
raw status as effective status. -/
theorem c4_to_charge (status : String) (d today : JSDate) :
    (status = "agendado" → dateLt (setHours0 d) (setHours0 today) = true →
      effectiveStatusModern status (some d) false today = "a_cobrar" ∧
      getStatusLabel status (some d) false today = "A Cobrar") ∧
    (¬(status = "agendado" ∧ dateLt (setHours0 d) (setHours0 today) = true) →
      effectiveStatusModern status (some d) false today = status) ∧
    effectiveStatusModern status none false today = status := by
  refine ⟨fun hs hd => ⟨?_, ?_⟩, fun hn => ?_, ?_⟩
  · simp [effectiveStatusModern, hs, hd]
  · simp [getStatusLabel, hs, hd]
  · by_cases hs : status = "agendado"
    · have hd : dateLt (setHours0 d) (setHours0 today) = false := by
        cases hdl : dateLt (setHours0 d) (setHours0 today)
        · rfl
        · exact absurd ⟨hs, hdl⟩ hn
      simp [effectiveStatusModern, hs, hd]
    · simp [effectiveStatusModern, hs]
  · simp [effectiveStatusModern]

/-- Witness for C4: a non-complimentary agendado appointment dated
yesterday derives to a_cobrar and is labelled A Cobrar. -/
theorem c4_to_charge_witness :
    effectiveStatusModern "agendado" (some ⟨0, 0⟩) false ⟨1, 0⟩ = "a_cobrar" ∧
    getStatusLabel "agendado" (some ⟨0, 0⟩) false ⟨1, 0⟩ = "A Cobrar" :=
  (c4_to_charge "agendado" ⟨0, 0⟩ ⟨1, 0⟩).1 rfl (by decide)

/- ### Financial aggregator (ClientDashboard.tsx getFinancialSummary,
lines 1212-1246)

A reduce over the appointment list: each appointment adds
(valor_total || 0) to the bucket of its status and bumps that bucket
count; statuses outside pago / a_cobrar / agendado / cancelado contribute
nothing.  The JavaScript switch on a string is translated as the
equivalent chain of equality tests. -/

/-- An appointment row with the fields this layer reads. -/
structure AppointmentRow where
  id : String
  user_id : String
  client_id : Option String
  date : String
  status : String
  valor_total : Option Int
  is_cortesia : Bool
  deriving DecidableEq, Repr

/-- The accumulator of getFinancialSummary. -/
structure FinancialSummary where
  total_recebido : Int
  total_pendente : Int
  total_agendado : Int
  total_cancelado : Int
  agendamentos_pagos : Nat
  agendamentos_pendentes : Nat
  agendamentos_agendados : Nat
  agendamentos_cancelados : Nat
  deriving DecidableEq, Repr

/-- The initial accumulator (all zeros). -/
def emptyFinancialSummary : FinancialSummary := ⟨0, 0, 0, 0, 0, 0, 0, 0⟩

/-- The reducer body of getFinancialSummary: valor is valor_total || 0 and
the switch adds to the bucket of the status. -/
def financialStep (summary : FinancialSummary) (appointment : AppointmentRow) :
    FinancialSummary :=
  let valor := appointment.valor_total.getD 0
  if appointment.status = "pago" then
    { summary with total_recebido := summary.total_recebido + valor,
                   agendamentos_pagos := summary.agendamentos_pagos + 1 }
  else if appointment.status = "a_cobrar" then
    { summary with total_pendente := summary.total_pendente + valor,
                   agendamentos_pendentes := summary.agendamentos_pendentes + 1 }
  else if appointment.status = "agendado" then
    { summary with total_agendado := summary.total_agendado + valor,
                   agendamentos_agendados := summary.agendamentos_agendados + 1 }
  else if appointment.status = "cancelado" then
    { summary with total_cancelado := summary.total_cancelado + valor,
                   agendamentos_cancelados := summary.agendamentos_cancelados + 1 }
  else summary

/-- getFinancialSummary: reduce over the appointment list starting from the
zero summary. -/
def getFinancialSummary (appointments : List AppointmentRow) :
    FinancialSummary :=
  appointments.foldl financialStep emptyFinancialSummary

/-- Componentwise addition of summaries, used to decompose the fold. -/
def FinancialSummary.add (x y : FinancialSummary) : FinancialSummary :=
  ⟨x.total_recebido + y.total_recebido, x.total_pendente + y.total_pendente,
   x.total_agendado + y.total_agendado, x.total_cancelado + y.total_cancelado,
   x.agendamentos_pagos + y.agendamentos_pagos,
   x.agendamentos_pendentes + y.agendamentos_pendentes,
   x.agendamentos_agendados + y.agendamentos_agendados,
   x.agendamentos_cancelados + y.agendamentos_cancelados⟩

theorem financialStep_decompose (s : FinancialSummary) (a : AppointmentRow) :
    financialStep s a = s.add (financialStep emptyFinancialSummary a) := by
  rw [financialStep, financialStep]
  split_ifs <;> cases s <;>
    simp [FinancialSummary.add, emptyFinancialSummary]

theorem FinancialSummary.add_empty (s : FinancialSummary) :
    s.add emptyFinancialSummary = s := by
  cases s; simp [FinancialSummary.add, emptyFinancialSummary]

theorem FinancialSummary.add_assoc (x y z : FinancialSummary) :
    (x.add y).add z = x.add (y.add z) := by
  cases x; cases y; cases z
  simp [FinancialSummary.add]
  refine ⟨?_, ?_, ?_, ?_, ?_, ?_, ?_, ?_⟩ <;> omega

theorem foldl_financialStep_decompose (l : List AppointmentRow) :
    ∀ s : FinancialSummary, l.foldl financialStep s =
      s.add (getFinancialSummary l) := by
  induction l with
  | nil => intro s; simp [getFinancialSummary, FinancialSummary.add_empty]
  | cons a t ih =>
    intro s
    rw [getFinancialSummary, List.foldl_cons, List.foldl_cons, ih,
      ih (financialStep emptyFinancialSummary a),
      financialStep_decompose s a, FinancialSummary.add_assoc]

theorem getFinancialSummary_cons (a : AppointmentRow)
    (t : List AppointmentRow) :
    getFinancialSummary (a :: t) =
      (financialStep emptyFinancialSummary a).add (getFinancialSummary t) := by
  rw [getFinancialSummary, List.foldl_cons, foldl_financialStep_decompose]

/-- The concrete paid appointment of the claim (value 100). -/
def samplePago : AppointmentRow :=
  { id := "a1", user_id := "u1", client_id := none,
    date := "2025-01-01T10:00:00", status := "pago",
    valor_total := some 100, is_cortesia := false }

/-- The concrete to-charge appointment of the claim (value 50). -/
def sampleACobrar : AppointmentRow :=
  { samplePago with id := "a2", status := "a_cobrar", valor_total := some 50 }

/-- The concrete cancelled appointment of the claim (value 30). -/
def sampleCancelado : AppointmentRow :=
  { samplePago with id := "a3", status := "cancelado", valor_total := some 30 }

/-- C5: the financial aggregator returns, per status in pago / a_cobrar /
agendado / cancelado, the sum of values and the count of appointments with
exactly that status, with no contribution from any other status; on the
concrete list of the claim it yields 100/1, 50/1, 30/1 and 0/0 for
agendado. -/
theorem c5_financial_aggregation :
    (∀ appointments : List AppointmentRow,
      (getFinancialSummary appointments).total_recebido =
        ((appointments.filter (fun a => a.status = "pago")).map
          (fun a => a.valor_total.getD 0)).sum ∧
      (getFinancialSummary appointments).agendamentos_pagos =
        (appointments.filter (fun a => a.status = "pago")).length ∧
      (getFinancialSummary appointments).total_pendente =
        ((appointments.filter (fun a => a.status = "a_cobrar")).map
          (fun a => a.valor_total.getD 0)).sum ∧
      (getFinancialSummary appointments).agendamentos_pendentes =
        (appointments.filter (fun a => a.status = "a_cobrar")).length ∧
      (getFinancialSummary appointments).total_agendado =
        ((appointments.filter (fun a => a.status = "agendado")).map
          (fun a => a.valor_total.getD 0)).sum ∧
      (getFinancialSummary appointments).agendamentos_agendados =
        (appointments.filter (fun a => a.status = "agendado")).length ∧
      (getFinancialSummary appointments).total_cancelado =
        ((appointments.filter (fun a => a.status = "cancelado")).map
          (fun a => a.valor_total.getD 0)).sum ∧
      (getFinancialSummary appointments).agendamentos_cancelados =
        (appointments.filter (fun a => a.status = "cancelado")).length) ∧
    getFinancialSummary [samplePago, sampleACobrar, sampleCancelado] =
      { total_recebido := 100, total_pendente := 50, total_agendado := 0,
        total_cancelado := 30, agendamentos_pagos := 1,
        agendamentos_pendentes := 1, agendamentos_agendados := 0,
        agendamentos_cancelados := 1 } := by
  constructor
  · intro appointments
    induction appointments with
    | nil => simp [getFinancialSummary, emptyFinancialSummary]
    | cons a t ih =>
      obtain ⟨ih1, ih2, ih3, ih4, ih5, ih6, ih7, ih8⟩ := ih
      rw [getFinancialSummary_cons]
      simp only [financialStep]
      split_ifs with h1 h2 h3 h4 <;>
        simp_all [FinancialSummary.add, emptyFinancialSummary,
          List.filter_cons] <;>
        omega
  · rfl

/- ### Portal booking creation slot check (ClientDashboard.tsx
createBookingMutation, lines 1492-1518 and 1570-1579)

Before inserting, the mutation queries appointments with the same account
(user_id), exactly equal date-time, and status not equal to cancelado; if
any row comes back it throws "Este horário já está ocupado" before any
insert is issued, otherwise it proceeds to the insert. -/

/-- createBookingMutation slot check and insert, over the current
appointments table: filter the occupying rows; error without touching the
table when one exists, otherwise insert the new row. -/
def createBooking (table : List AppointmentRow) (newRow : AppointmentRow) :
    Except String (List AppointmentRow) :=
  let existingAppointments := table.filter (fun a =>
    decide (a.user_id = newRow.user_id ∧ a.date = newRow.date ∧
      a.status ≠ "cancelado"))
  if existingAppointments.length > 0 then
    .error "Este horário já está ocupado"
  else
    .ok (table ++ [newRow])

/-- C6: if some existing appointment of the account occupies precisely the
requested date-time with a non-cancelled status, booking creation fails
with the slot-occupied error and no row is inserted; otherwise the check
passes and the insert is attempted. -/
theorem c6_slot_check (table : List AppointmentRow) (b : AppointmentRow) :
    ((∃ a ∈ table, a.user_id = b.user_id ∧ a.date = b.date ∧
        a.status ≠ "cancelado") →
      createBooking table b = .error "Este horário já está ocupado") ∧
    ((∀ a ∈ table, ¬(a.user_id = b.user_id ∧ a.date = b.date ∧
        a.status ≠ "cancelado")) →
      createBooking table b = .ok (table ++ [b])) := by
  constructor
  · rintro ⟨a, ha, hcond⟩
    rw [createBooking]
    have hmem : a ∈ table.filter (fun a =>
        decide (a.user_id = b.user_id ∧ a.date = b.date ∧
          a.status ≠ "cancelado")) :=
      List.mem_filter.mpr ⟨ha, by simpa using hcond⟩
    rw [if_pos (List.length_pos_of_mem hmem)]
  · intro hno
    rw [createBooking]
    have hfil : table.filter (fun a =>
        decide (a.user_id = b.user_id ∧ a.date = b.date ∧
          a.status ≠ "cancelado")) = [] :=
      List.filter_eq_nil_iff.mpr (fun a ha => by simpa using hno a ha)
    simp [hfil]
    intro a ha h1 h2
    by_contra h3
    exact hno a ha ⟨h1, h2, h3⟩

/-- The appointment occupying the slot in the witness scenario. -/
def occupyingRow : AppointmentRow :=
  { id := "b1", user_id := "u1", client_id := some "c9",
    date := "2025-02-01T09:00:00", status := "agendado",
    valor_total := some 80, is_cortesia := false }

/-- The booking request colliding with occupyingRow in the witness. -/
def collidingRow : AppointmentRow :=
  { occupyingRow with id := "b2", client_id := some "c2" }

/-- Witness for C6: with a non-cancelled appointment already at the exact
slot, the creation errors. -/
theorem c6_slot_check_witness :
    createBooking [occupyingRow] collidingRow =
      .error "Este horário já está ocupado" :=
  (c6_slot_check [occupyingRow] collidingRow).1
    ⟨occupyingRow, by simp, by decide⟩

/- ### Related-entity cache (ClientDashboard.tsx fetchRelatedData,
lines 808-849)

For each entity kind (booking_clients keyed in clientsCache, modalities
keyed in modalitiesCache) the function deduplicates the referenced ids
with a Set, keeps only the ids missing from the per-account cache Map,
queries the remote store for exactly those, merges the returned rows into
a copy of the cache Map with Map.set, stores the merged Map back, and
returns it.  resolveEntities below is that per-kind body; the remote store
is a fixed partial function from id to row (rows of other accounts or
deleted ids yield none, and are then simply absent from the result). -/

/-- JavaScript Map.has on an association list. -/
def jsMapHas {ρ : Type} (m : List (String × ρ)) (k : String) : Bool :=
  m.any (fun p => p.1 == k)

/-- JavaScript Map.set: overwrite the entry when the key exists, otherwise
append it. -/
def jsMapSet {ρ : Type} (m : List (String × ρ)) (k : String) (v : ρ) :
    List (String × ρ) :=
  if jsMapHas m k then m.map (fun p => if p.1 = k then (k, v) else p)
  else m ++ [(k, v)]

/-- JavaScript Map.get. -/
def jsMapGet {ρ : Type} (m : List (String × ρ)) (k : String) : Option ρ :=
  (m.find? (fun p => p.1 == k)).map (fun p => p.2)

/-- New Set(ids) spread back into an array: first occurrences in order. -/
def jsSetDedup (ids : List String) : List String :=
  ids.foldl (fun acc id => if id ∈ acc then acc else acc ++ [id]) []

/-- The per-kind body of fetchRelatedData: dedupe the ids, keep those
missing from the cache, fetch exactly those from the remote store, merge
the fetched rows into the cache, return the ids actually requested
remotely together with the merged cache (which is also stored back and is
the mapping handed to the join stage). -/
def resolveEntities {ρ : Type} (remote : String → Option ρ)
    (cache : List (String × ρ)) (ids : List String) :
    List String × List (String × ρ) :=
  let uniqueIds := jsSetDedup ids
  let missingIds := uniqueIds.filter (fun id => ! jsMapHas cache id)
  let fetched := missingIds.filterMap
    (fun id => (remote id).map (fun r => (id, r)))
  let newMap := fetched.foldl (fun m p => jsMapSet m p.1 p.2) cache
  (missingIds, newMap)

theorem jsMapHas_of_mem {ρ : Type} (m : List (String × ρ)) (k : String)
    (p : String × ρ) (hp : p ∈ m) (hk : p.1 = k) : jsMapHas m k = true := by
  simp only [jsMapHas, List.any_eq_true]
  exact ⟨p, hp, by simp [hk]⟩

theorem jsMapHas_set_self {ρ : Type} (m : List (String × ρ)) (k : String)
    (v : ρ) : jsMapHas (jsMapSet m k v) k = true := by
  rw [jsMapSet]
  by_cases hm : jsMapHas m k
  · rw [if_pos hm]
    simp only [jsMapHas, List.any_eq_true] at hm
    obtain ⟨q, hq, hqk⟩ := hm
    simp only [beq_iff_eq] at hqk
    apply jsMapHas_of_mem _ k (if q.1 = k then (k, v) else q)
    · exact List.mem_map.mpr ⟨q, hq, rfl⟩
    · simp [hqk]
  · rw [if_neg hm]
    exact jsMapHas_of_mem _ k (k, v) (by simp) rfl

theorem jsMapHas_set_mono {ρ : Type} (m : List (String × ρ)) (k k2 : String)
    (v : ρ) (h : jsMapHas m k2 = true) :
    jsMapHas (jsMapSet m k v) k2 = true := by
  simp only [jsMapHas, List.any_eq_true] at h
  obtain ⟨p, hp, hpk⟩ := h
  simp only [beq_iff_eq] at hpk
  rw [jsMapSet]
  by_cases hm : jsMapHas m k
  · rw [if_pos hm]
    apply jsMapHas_of_mem _ k2 (if p.1 = k then (k, v) else p)
    · exact List.mem_map.mpr ⟨p, hp, rfl⟩
    · by_cases hpkk : p.1 = k
      · simp [hpkk]; rw [← hpkk]; exact hpk
      · simp [hpkk]; exact hpk
  · rw [if_neg hm]
    exact jsMapHas_of_mem _ k2 p (by simp [hp]) hpk

theorem jsMapHas_foldl_mono {ρ : Type} (fetched : List (String × ρ)) :
    ∀ (cache : List (String × ρ)) (id : String),
      jsMapHas cache id = true →
      jsMapHas (fetched.foldl (fun m p => jsMapSet m p.1 p.2) cache) id =
        true := by
  induction fetched with
  | nil => intro cache id h; simpa using h
  | cons q t ih =>
    intro cache id h
    rw [List.foldl_cons]
    exact ih _ id (jsMapHas_set_mono cache q.1 id q.2 h)

theorem jsMapHas_foldl_of_mem {ρ : Type} (fetched : List (String × ρ)) :
    ∀ (cache : List (String × ρ)) (p : String × ρ), p ∈ fetched →
      jsMapHas (fetched.foldl (fun m p => jsMapSet m p.1 p.2) cache) p.1 =
        true := by
  induction fetched with
  | nil => intro cache p h; cases h
  | cons q t ih =>
    intro cache p hp
    rw [List.foldl_cons]
    rcases List.mem_cons.mp hp with rfl | hmem
    · exact jsMapHas_foldl_mono t _ p.1 (jsMapHas_set_self cache p.1 p.2)
    · exact ih _ p hmem

theorem jsSetDedup_nodup_aux :
    ∀ (ids acc : List String), acc.Nodup →
      (ids.foldl (fun acc id => if id ∈ acc then acc else acc ++ [id])
        acc).Nodup := by
  intro ids
  induction ids with
  | nil => intro acc h; simpa using h
  | cons a t ih =>
    intro acc h
    rw [List.foldl_cons]
    by_cases hm : a ∈ acc
    · rw [if_pos hm]; exact ih acc h
    · rw [if_neg hm]
      apply ih
      simp [List.nodup_append, h, hm]

theorem jsSetDedup_nodup (ids : List String) : (jsSetDedup ids).Nodup :=
  jsSetDedup_nodup_aux ids [] List.nodup_nil

theorem jsMapHas_resolve_mono {ρ : Type} (remote : String → Option ρ)
    (cache : List (String × ρ)) (ids : List String) (id : String)
    (h : jsMapHas cache id = true) :
    jsMapHas (resolveEntities remote cache ids).2 id = true := by
  simp only [resolveEntities]
  exact jsMapHas_foldl_mono _ cache id h

theorem jsMapHas_resolve_of_fetched {ρ : Type} (remote : String → Option ρ)
    (cache : List (String × ρ)) (ids : List String) (id : String) (r : ρ)
    (hidm : id ∈ (resolveEntities remote cache ids).1)
    (hrem : remote id = some r) :
    jsMapHas (resolveEntities remote cache ids).2 id = true := by
  simp only [resolveEntities] at hidm ⊢
  have hmemF : (id, r) ∈ (((jsSetDedup ids).filter
      (fun id => ! jsMapHas cache id)).filterMap
      (fun id => (remote id).map (fun r => (id, r)))) :=
    List.mem_filterMap.mpr ⟨id, hidm, by simp [hrem]⟩
  exact jsMapHas_foldl_of_mem _ cache (id, r) hmemF

/-- C7: resolving the same id set twice is idempotent.  resolveEntities is
the per-kind body of fetchRelatedData, instantiated once for clients
(booking_clients / clientsCache) and once for modalities (modalities /
modalitiesCache).  The requested-id list is duplicate-free; after a first
resolution, the second resolution requests no id present in the merged
cache of the first; and the second resolution returns exactly the same
mapping (hence the same record for every requested id). -/
theorem c7_resolve_idempotent {ρ : Type} (remote : String → Option ρ)
    (cache : List (String × ρ)) (ids : List String) :
    (resolveEntities remote cache ids).1.Nodup ∧
    (∀ id ∈ (resolveEntities remote
        (resolveEntities remote cache ids).2 ids).1,
      jsMapHas (resolveEntities remote cache ids).2 id = false) ∧
    (resolveEntities remote (resolveEntities remote cache ids).2 ids).2 =
      (resolveEntities remote cache ids).2 ∧
    (∀ id, jsMapGet (resolveEntities remote
        (resolveEntities remote cache ids).2 ids).2 id =
      jsMapGet (resolveEntities remote cache ids).2 id) := by
  have hreq : ∀ id ∈ (resolveEntities remote
      (resolveEntities remote cache ids).2 ids).1,
      jsMapHas (resolveEntities remote cache ids).2 id = false := by
    intro id hid
    simp only [resolveEntities] at hid
    simpa using (List.mem_filter.mp hid).2
  have hfetch2 : ((resolveEntities remote
      (resolveEntities remote cache ids).2 ids).1).filterMap
      (fun id => (remote id).map (fun r => (id, r))) = [] := by
    rw [List.filterMap_eq_nil_iff]
    intro id hid
    cases hrem : remote id with
    | none => simp
    | some r =>
      exfalso
      have hhas : jsMapHas (resolveEntities remote cache ids).2 id = false :=
        hreq id hid
      have hidU : id ∈ jsSetDedup ids := by
        simp only [resolveEntities] at hid
        exact (List.mem_filter.mp hid).1
      by_cases hc : jsMapHas cache id = true
      · rw [jsMapHas_resolve_mono remote cache ids id hc] at hhas
        cases hhas
      · have hidM1 : id ∈ (resolveEntities remote cache ids).1 := by
          simp only [resolveEntities]
          exact List.mem_filter.mpr ⟨hidU, by simp [hc]⟩
        rw [jsMapHas_resolve_of_fetched remote cache ids id r hidM1 hrem]
          at hhas
        cases hhas
  have hsame : (resolveEntities remote
      (resolveEntities remote cache ids).2 ids).2 =
      (resolveEntities remote cache ids).2 := by
    conv_lhs => rw [resolveEntities]
    simp only
    rw [show ((jsSetDedup ids).filter (fun id =>
        ! jsMapHas (resolveEntities remote cache ids).2 id)).filterMap
        (fun id => (remote id).map (fun r => (id, r))) = [] from ?_]
    · rfl
    · have := hfetch2
      simp only [resolveEntities] at this ⊢
      exact this
  refine ⟨?_, hreq, hsame, fun id => by rw [hsame]⟩
  simp only [resolveEntities]
  exact (jsSetDedup_nodup ids).filter _

/-- A concrete remote client store for the cache witness: only id c1
exists. -/
def remoteClientsW : String → Option String :=
  fun id => if id = "c1" then some "Alice" else none

/-- Witness for C7: the idempotence theorem applied to a concrete store,
empty cache and a duplicated id list. -/
theorem c7_resolve_idempotent_witness :
    (resolveEntities remoteClientsW [] ["c1", "c1", "x"]).1.Nodup ∧
    jsMapHas (resolveEntities remoteClientsW [] ["c1", "c1", "x"]).2 "x" =
      false ∧
    (resolveEntities remoteClientsW
      (resolveEntities remoteClientsW [] ["c1", "c1", "x"]).2
      ["c1", "c1", "x"]).2 =
      (resolveEntities remoteClientsW [] ["c1", "c1", "x"]).2 ∧
    jsMapGet (resolveEntities remoteClientsW
      (resolveEntities remoteClientsW [] ["c1", "c1", "x"]).2
      ["c1", "c1", "x"]).2 "c1" =
      jsMapGet (resolveEntities remoteClientsW [] ["c1", "c1", "x"]).2 "c1" := by
  have h := c7_resolve_idempotent remoteClientsW [] ["c1", "c1", "x"]
  exact ⟨h.1, h.2.1 "x" (by decide), h.2.2.1, h.2.2.2 "c1"⟩

/- ### Client deletion (DashboardModern.tsx handleDeleteClient lines
1081-1128, AlertDialogAction disabled condition lines 1489-1501)

openDeleteModal loads appointmentsForClient as the appointments filtered by
the client id and the account.  The confirm button is disabled while
deleting, without a selected client, or — when dependent appointments
exist — until the typed confirmation equals the client name after
trimming and lowercasing both sides.  handleDeleteClient then deletes the
appointments matching (client_id, user_id) — only issuing that delete when
appointmentsForClient is nonempty — and afterwards the client row matching
(id, user_id). -/

/-- A client row of booking_clients. -/
structure Client where
  id : String
  user_id : String
  name : String
  deriving DecidableEq, Repr

/-- JavaScript String.prototype.toLowerCase, over the character list. -/
def jsToLower (s : String) : String := ⟨s.data.map Char.toLower⟩

/-- JavaScript String.prototype.trim: strip whitespace from both ends. -/
def jsTrim (s : String) : String :=
  ⟨((s.data.dropWhile Char.isWhitespace).reverse.dropWhile
      Char.isWhitespace).reverse⟩

/-- The disabled condition of the delete-confirmation button. -/
def deleteClientActionDisabled (isDeleting : Bool)
    (clientToDelete : Option Client)
    (appointmentsForClient : List AppointmentRow)
    (confirmClientName : String) : Bool :=
  isDeleting || clientToDelete.isNone ||
    (decide (appointmentsForClient.length > 0) &&
      (match clientToDelete with
       | some c => jsToLower (jsTrim confirmClientName) !=
           jsToLower (jsTrim c.name)
       | none => false))

/-- handleDeleteClient: returns none when no client is selected (early
return); otherwise the appointments table after the conditional cascade
delete, the clients table after the client delete, and whether the
appointment delete was issued. -/
def handleDeleteClient (uid : String) (clientToDelete : Option Client)
    (appointmentsForClient : List AppointmentRow)
    (appointmentsTable : List AppointmentRow) (clientsTable : List Client) :
    Option (List AppointmentRow × List Client × Bool) :=
  match clientToDelete with
  | none => none
  | some c =>
    let issuedAppointmentsDelete := decide (appointmentsForClient.length > 0)
    let appointmentsTable2 :=
      if issuedAppointmentsDelete then
        appointmentsTable.filter (fun a =>
          ! decide (a.client_id = some c.id ∧ a.user_id = uid))
      else appointmentsTable
    let clientsTable2 := clientsTable.filter (fun cl =>
      ! decide (cl.id = c.id ∧ cl.user_id = uid))
    some (appointmentsTable2, clientsTable2, issuedAppointmentsDelete)

/-- The client of the C9 scenarios. -/
def anaClient : Client := { id := "cl1", user_id := "u1", name := "Ana" }

/-- The one appointment referencing anaClient. -/
def anaAppointment : AppointmentRow :=
  { id := "a9", user_id := "u1", client_id := some "cl1",
    date := "2025-03-01T08:00:00", status := "agendado",
    valor_total := some 10, is_cortesia := false }

/-- Counterexample to C9 as stated: with one dependent appointment, typing
ANA — which is not the exact client name Ana — already enables the delete
action, because the source compares the names case-insensitively after
trimming. -/
theorem c9_counterexample :
    deleteClientActionDisabled false (some anaClient) [anaAppointment]
      "ANA" = false ∧
    "ANA" ≠ anaClient.name :=
  ⟨by decide, by decide⟩

/-- C9 amended: with dependent appointments the delete action is enabled
exactly when the typed confirmation matches the client name up to
surrounding whitespace and letter case (not the exact name); with zero
dependent appointments no confirmation is required; and the action deletes
exactly the appointments whose client reference and account match the
client, issuing that delete only when dependent appointments exist, and
then deletes the client row. -/
theorem c9_delete_cascade (uid : String) (c : Client)
    (appointmentsTable : List AppointmentRow) (clientsTable : List Client)
    (fc : List AppointmentRow) (confirm : String)
    (hfc : fc = appointmentsTable.filter (fun a =>
      decide (a.client_id = some c.id ∧ a.user_id = uid))) :
    (fc ≠ [] →
      (deleteClientActionDisabled false (some c) fc confirm = false ↔
        jsToLower (jsTrim confirm) = jsToLower (jsTrim c.name))) ∧
    (fc = [] →
      deleteClientActionDisabled false (some c) fc confirm = false) ∧
    handleDeleteClient uid (some c) fc appointmentsTable clientsTable =
      some (appointmentsTable.filter (fun a =>
          ! decide (a.client_id = some c.id ∧ a.user_id = uid)),
        clientsTable.filter (fun cl =>
          ! decide (cl.id = c.id ∧ cl.user_id = uid)),
        decide (fc.length > 0)) := by
  refine ⟨fun hne => ?_, fun hnil => ?_, ?_⟩
  · have hlen : 0 < fc.length := List.length_pos.mpr hne
    simp [deleteClientActionDisabled, hlen, bne_eq_false_iff_eq]
  · simp [deleteClientActionDisabled, hnil]
  · simp only [handleDeleteClient]
    by_cases hlen : 0 < fc.length
    · simp [hlen]
    · have hnil : fc = [] := by
        cases fc with
        | nil => rfl
        | cons a t => simp at hlen
      have hft : appointmentsTable.filter (fun a =>
          decide (a.client_id = some c.id ∧ a.user_id = uid)) = [] := by
        rw [← hfc, hnil]
      have hid : appointmentsTable.filter (fun a =>
          ! decide (a.client_id = some c.id ∧ a.user_id = uid)) =
          appointmentsTable :=
        List.filter_eq_self.mpr (fun a ha => by
          have h2 := List.filter_eq_nil_iff.mp hft a ha
          simp only [decide_eq_true_eq] at h2
          simp [h2])
      rw [hid, hnil]
      simp

/-- Witness for C9 amended: typing exactly Ana enables the action, and the
delete cascade removes the one dependent appointment and the client row. -/
theorem c9_delete_cascade_witness :
    deleteClientActionDisabled false (some anaClient) [anaAppointment]
      "Ana" = false ∧
    handleDeleteClient "u1" (some anaClient) [anaAppointment]
      [anaAppointment] [anaClient] = some ([], [], true) := by
  have h := c9_delete_cascade "u1" anaClient [anaAppointment] [anaClient]
    [anaAppointment] "Ana" (by decide)
  refine ⟨(h.1 (by decide)).mpr (by decide), ?_⟩
  rw [h.2.2]
  decide

/- ### Client-portal status text (ClientDashboard.tsx getStatusText,
lines 406-427)

If a date is supplied and it lies strictly in the future of the current
moment, the text is Agendado regardless of the stored status; otherwise
the stored status alone selects the text through the switch. -/

/-- The switch of getStatusText: agendado and pago display Agendado,
a_cobrar displays Pendente, cancelado displays Cancelado, anything else
displays itself. -/
def statusTextSwitch (status : String) : String :=
  if status = "agendado" then "Agendado"
  else if status = "pago" then "Agendado"
  else if status = "a_cobrar" then "Pendente"
  else if status = "cancelado" then "Cancelado"
  else status

/-- getStatusText: future appointments always read Agendado; otherwise the
switch on the stored status decides. -/
def getStatusText (status : String) (date : Option JSDate) (now : JSDate) :
    String :=
  match date with
  | some d => if dateLt now d then "Agendado" else statusTextSwitch status
  | none => statusTextSwitch status

/-- C10: in the portal, every appointment dated strictly after the current
moment is shown as Agendado whatever the stored status (including
cancelado and a_cobrar), and for an appointment dated at or before the
current moment the text is a function of the stored status alone. -/
theorem c10_future_text (status : String) (d now : JSDate) :
    (dateLt now d = true → getStatusText status (some d) now = "Agendado") ∧
    (dateLt now d = false →
      getStatusText status (some d) now = statusTextSwitch status) := by
  constructor <;> intro h <;> simp [getStatusText, h]

/-- Witness for C10: a cancelled appointment dated tomorrow is displayed
as Agendado. -/
theorem c10_future_text_witness :
    getStatusText "cancelado" (some ⟨1, 0⟩) ⟨0, 0⟩ = "Agendado" :=
  (c10_future_text "cancelado" ⟨1, 0⟩ ⟨0, 0⟩).1 (by decide)
